import Mathlib

/-!
Verification of the sound-of-knowledge repository: a shallow embedding of the
event classification (src/lib/classify.ts), the shared reactive store
(src/lib/store.ts), the generative audio scheduler (src/lib/audio.ts) and the
particle pool allocation (src/components/ParticleSystem.tsx), together with
theorems settling the specification claims about them.

Modelling conventions:
- JavaScript numbers that hold integral byte counts, timestamps and counters
  are modelled as `Int`/`Nat`; audio-clock times (seconds) as `Rat`.
- The raw, loosely typed JSON record consumed by `normalizeEvent` is modelled
  as a record of `Option`-typed fields; `none` models an absent field and the
  `?? default` fallbacks of the source become `Option.getD`.
- Impure inputs (the wall clock `Tone.now()`, `Date.now()`, `performance.now()`,
  `Math.random()`) are passed as explicit parameters.
-/

/-- EditMagnitude from src/lib/types.ts: "TINY" | "SMALL" | "MEDIUM" | "LARGE". -/
inductive EditMagnitude where
  | TINY
  | SMALL
  | MEDIUM
  | LARGE
  deriving DecidableEq, Repr

/-- Rank realising the ordering TINY < SMALL < MEDIUM < LARGE of the enumeration. -/
def EditMagnitude.rank : EditMagnitude → Nat
  | .TINY => 0
  | .SMALL => 1
  | .MEDIUM => 2
  | .LARGE => 3

/-- WikiEditEvent from src/lib/types.ts.  `timestamp` is epoch milliseconds. -/
structure WikiEditEvent where
  id : String
  title : String
  sizeDelta : Int
  isBot : Bool
  isRevert : Bool
  timestamp : Int
  magnitude : EditMagnitude
  pageUrl : Option String := none
  editUrl : Option String := none
  deriving DecidableEq, Repr

/-- classifyMagnitude from src/lib/classify.ts lines 3-11:
if (isRevert || Math.abs(sizeDelta) >= 5000) return "LARGE";
if (Math.abs(sizeDelta) >= 501) return "MEDIUM";
if (Math.abs(sizeDelta) >= 51) return "SMALL"; return "TINY". -/
def classifyMagnitude (sizeDelta : Int) ( isRevert : Bool) : EditMagnitude :=
  if isRevert || decide (5000 ≤ sizeDelta.natAbs) then .LARGE
  else if 501 ≤ sizeDelta.natAbs then .MEDIUM
  else if 51 ≤ sizeDelta.natAbs then .SMALL
  else .TINY

/-- AudioState from src/lib/store.ts lines 7-11. -/
structure AudioState where
  amplitude : Rat
  lowFreq : Rat
  highFreq : Rat
  deriving DecidableEq, Repr

/-- A Partial of AudioState, the argument type of setAudio (src/lib/store.ts line 25). -/
structure AudioPatch where
  amplitude : Option Rat := none
  lowFreq : Option Rat := none
  highFreq : Option Rat := none
  deriving DecidableEq, Repr

/-- The data fields of the zustand store (src/lib/store.ts lines 13-21). -/
structure Store where
  queue : List WikiEditEvent
  history : List WikiEditEvent
  totalCount : Nat
  audio : AudioState
  overlayVisible : Bool
  connected : Bool
  introFinished : Bool
  aboutVisible : Bool
  deriving DecidableEq, Repr

/-- MAX_QUEUE from src/lib/store.ts line 4. -/
def MAX_QUEUE : Nat := 200

/-- MAX_HISTORY from src/lib/store.ts line 5. -/
def MAX_HISTORY : Nat := 500

/-- Initial store state (src/lib/store.ts lines 34-41). -/
def initialStore : Store :=
  { queue := [], history := [], totalCount := 0
    audio := { amplitude := 0, lowFreq := 0, highFreq := 0 }
    overlayVisible := true, connected := false
    introFinished := false, aboutVisible := false }

/-- The bounded append used by enqueue for both the queue and the history ring:
`l.length >= cap ? [...l.slice(1), event] : [...l, event]`. -/
def pushBounded (cap : Nat) (l : List WikiEditEvent) (event : WikiEditEvent) :
    List WikiEditEvent :=
  if cap ≤ l.length then l.drop 1 ++ [event] else l ++ [event]

/-- enqueue from src/lib/store.ts lines 43-54. -/
def Store.enqueue (s : Store) (event : WikiEditEvent) : Store :=
  { s with
    queue := pushBounded MAX_QUEUE s.queue event
    history := pushBounded MAX_HISTORY s.history event
    totalCount := s.totalCount + 1 }

/-- dequeue from src/lib/store.ts lines 56-62: returns the updated store and the
dequeued head (`none` models `undefined`). -/
def Store.dequeue (s : Store) : Store × Option WikiEditEvent :=
  match s.queue with
  | [] => (s, none)
  | first :: rest => ({ s with queue := rest }, some first)

/-- setAudio from src/lib/store.ts lines 64-65: spread-merge of a partial patch. -/
def Store.setAudio (s : Store) (p : AudioPatch) : Store :=
  { s with
    audio :=
      { amplitude := p.amplitude.getD s.audio.amplitude
        lowFreq := p.lowFreq.getD s.audio.lowFreq
        highFreq := p.highFreq.getD s.audio.highFreq } }

/-- One call to any mutating operation of the store (src/lib/store.ts lines 43-75). -/
inductive StoreOp where
  | enq (event : WikiEditEvent)
  | deq
  | setAudio (p : AudioPatch)
  | toggleOverlay
  | setConnected (v : Bool)
  | setIntroFinished (v : Bool)
  | toggleAbout
  | setAboutVisible (v : Bool)

/-- Applying one store operation (dequeue keeps only the state component). -/
def applyOp (s : Store) : StoreOp → Store
  | .enq event => s.enqueue event
  | .deq => s.dequeue.1
  | .setAudio p => s.setAudio p
  | .toggleOverlay => { s with overlayVisible := !s.overlayVisible }
  | .setConnected v => { s with connected := v }
  | .setIntroFinished v => { s with introFinished := v }
  | .toggleAbout => { s with aboutVisible := !s.aboutVisible }
  | .setAboutVisible v => { s with aboutVisible := v }

/-- Applying a sequence of store operations in order. -/
def applyOps (s : Store) (ops : List StoreOp) : Store :=
  ops.foldl applyOp s

/-- Enqueueing a sequence of events in arrival order. -/
def enqueueAll (s : Store) (es : List WikiEditEvent) : Store :=
  es.foldl Store.enqueue s

/-- A concrete event used by the closed witness theorems. -/
def sampleEvent : WikiEditEvent :=
  { id := "1", title := "t", sizeDelta := 10, isBot := false, isRevert := false
    timestamp := 1700000000000, magnitude := .TINY }

/-- Helper for JS String.prototype.includes: does the needle (second argument)
occur at the start of the hay (first argument)? -/
def charsHavePrefix : List Char → List Char → Bool
  | _, [] => true
  | [], _ :: _ => false
  | h :: hs, n :: ns => h == n && charsHavePrefix hs ns

/-- JS String.prototype.includes on code-unit lists: the needle occurs somewhere
in the hay (the empty needle is always found, as in JS). -/
def charsInclude : List Char → List Char → Bool
  | [], needle => needle.isEmpty
  | h :: t, needle => charsHavePrefix (h :: t) needle || charsInclude t needle

/-- JS toLowerCase restricted to the ASCII range, which is all the revert check
needs; `Char.toLower` lowercases exactly the ASCII uppercase letters. -/
def lowerChars (cs : List Char) : List Char := cs.map Char.toLower

/-- The revert comment check of src/lib/classify.ts lines 26-27:
`comment.toLowerCase().includes("revert") || comment.toLowerCase().includes("undo")`. -/
def commentMentionsRevert (comment : String) : Bool :=
  charsInclude (lowerChars comment.data) "revert".data
    || charsInclude (lowerChars comment.data) "undo".data

/-- The raw stream record consumed by normalizeEvent (src/lib/classify.ts line 13),
modelled with typed optional fields: `none` is an absent field, and the JS
`?? default` fallbacks become `Option.getD`.  `metaId` models `meta?.id`. -/
structure RawRecord where
  metaId : Option String := none
  id : Option String := none
  title : Option String := none
  lengthNew : Option Int := none
  lengthOld : Option Int := none
  bot : Option Bool := none
  comment : Option String := none
  reverted : Option Bool := none
  timestamp : Option Int := none
  deriving DecidableEq, Repr

/-- normalizeEvent from src/lib/classify.ts lines 13-35.  `fallbackId` stands for
the stringified `Math.random()` fallback and `nowMs` for `Date.now()` (the source
computes `Number(raw.timestamp ?? Date.now()/1000)*1000`, and `Date.now()/1000*1000`
is `Date.now()` in exact arithmetic).  None of the modelled coercions can throw,
so the try/catch wrapper of the source never yields null on this model. -/
def normalizeEvent (raw : RawRecord) (fallbackId : String) (nowMs : Int) :
    WikiEditEvent :=
  let id := (raw.metaId.orElse fun _ => raw.id).getD fallbackId
  let title := raw.title.getD ""
  let newLen := raw.lengthNew.getD 0
  let oldLen := raw.lengthOld.getD 0
  let sizeDelta := newLen - oldLen
  let isBot := raw.bot.getD false
  let comment := raw.comment.getD ""
  let isRevert := raw.reverted.getD false || commentMentionsRevert comment
  let timestamp := (raw.timestamp.map (· * 1000)).getD nowMs
  let magnitude := classifyMagnitude sizeDelta isRevert
  { id := id, title := title, sizeDelta := sizeDelta, isBot := isBot
    isRevert := isRevert, timestamp := timestamp, magnitude := magnitude }

/-- The raw record of the C4 scenario. -/
def rawTypoFix : RawRecord :=
  { lengthOld := some 100, lengthNew := some 150, bot := some false
    comment := some "typo fix" }

/-- Well-formedness of a raw record in the sense of C7: length.old, length.new,
bot, comment and timestamp all present with their expected types. -/
def WellFormedRaw (raw : RawRecord) : Prop :=
  raw.lengthOld.isSome ∧ raw.lengthNew.isSome ∧ raw.bot.isSome ∧
  raw.comment.isSome ∧ raw.timestamp.isSome

instance (raw : RawRecord) : Decidable (WellFormedRaw raw) := by
  unfold WellFormedRaw
  infer_instance

/-- A well-formed raw record whose comment mentions "undo". -/
def rawUndo : RawRecord :=
  { lengthOld := some 2, lengthNew := some 5, bot := some false
    comment := some "undo spam", timestamp := some 7 }

/-- The 32-bit wrap-around modulus of JS bitwise arithmetic. -/
def UINT32 : Nat := 4294967296

/-- The FNV-style 32-bit hash shared by hashEvent (src/lib/audio.ts 167-175) and
hashString (src/components/ParticleSystem.tsx 62-69): per code unit the hash is
xored with the character code and multiplied by 16777619 with 32-bit wrap-around
(Math.imul).  The signed 32-bit JS intermediates are congruent mod 2^32 to this
unsigned model and the final `>>> 0` yields exactly this value; `Char.toNat`
equals `charCodeAt` on the basic plane. -/
def fnv1a (cs : List Char) : Nat :=
  cs.foldl (fun h c => ((Nat.xor h c.toNat) * 16777619) % UINT32) 2166136261

/-- hashString from src/components/ParticleSystem.tsx lines 62-69. -/
def hashString (s : String) : Nat := fnv1a s.data

/-- hashEvent from src/lib/audio.ts lines 167-175, hashing
`id-title-timestamp-sizeDelta` (integer rendering matches the JS template). -/
def hashEvent (e : WikiEditEvent) : Nat :=
  fnv1a (e.id ++ "-" ++ e.title ++ "-" ++ toString e.timestamp
    ++ "-" ++ toString e.sizeDelta).data

/-- rand from src/lib/audio.ts lines 177-179. -/
def jsRand (seed salt : Nat) : Rat :=
  (Nat.xor seed ((salt * 1103515245) % UINT32) : Rat) / 4294967295

/-- seedNorm from src/components/ParticleSystem.tsx lines 71-73. -/
def seedNorm (seed salt : Nat) : Rat :=
  (Nat.xor seed ((salt * 2654435761) % UINT32) : Rat) / 4294967295

/-- The mutable module-level scheduler state of src/lib/audio.ts (lines 18 and
160-163): the init flag, the drone flag, the rolling note counter, the variation
counter, the shared scheduling cursor and the wall-clock time of the last
accepted trigger. -/
structure SchedState where
  initialized : Bool
  droneStarted : Bool
  noteIdx : Nat
  variationTick : Nat
  nextTrigger : Rat
  lastTriggerAt : Rat
  deriving DecidableEq, Repr

/-- The initial scheduler state (src/lib/audio.ts lines 18, 160-163). -/
def initialSched : SchedState :=
  { initialized := false, droneStarted := false, noteIdx := 0
    variationTick := 0, nextTrigger := 0, lastTriggerAt := 0 }

/-- getNextTriggerTime from src/lib/audio.ts lines 181-185: the new value of the
shared cursor, `Math.max(now + 0.005, nextTrigger + 0.002)`, which is also the
returned schedule time; `now` models `Tone.now()`. -/
def getNextTriggerTime (now nextTrigger : Rat) : Rat :=
  max (now + 5/1000) (nextTrigger + 2/1000)

/-- The magnitude-dependent minimum gap of triggerEdit (src/lib/audio.ts 227-231). -/
def minGapForEvent (e : WikiEditEvent) : Rat :=
  if e.isRevert || e.magnitude == .LARGE then 12/100
  else if e.magnitude == .MEDIUM then 9/100
  else 6/100

/-- triggerEdit from src/lib/audio.ts lines 217-303, as a state transformer also
returning the jittered base time handed to the synth triggers, or `none` when
the call schedules no audio (pre-init return, or minimum-gap drop).  The
synthesis side effects (note and synth selection, effect ramps) never feed back
into the scheduler state and are not modelled; every accepted branch (bot,
revert, and all four magnitudes) schedules audio at the jittered time and ends
with noteIdx incremented by one. -/
def triggerEdit (s : SchedState) (e : WikiEditEvent) (now : Rat) :
    SchedState × Option Rat :=
  if s.initialized = false then (s, none)
  else
    let tick := s.variationTick + 1
    let seed := Nat.xor (hashEvent e) (tick % UINT32)
    if now - s.lastTriggerAt < minGapForEvent e then
      ({ s with variationTick := tick }, none)
    else
      let nt := getNextTriggerTime now s.nextTrigger
      let jitteredTime := nt + (jsRand seed 3 - 1/2) * (2/100)
      ({ s with variationTick := tick, lastTriggerAt := now
                nextTrigger := nt, noteIdx := s.noteIdx + 1 }, some jitteredTime)

/-- init from src/lib/audio.ts lines 350-356.  `backendOk` models whether
`await Tone.start()` resolves; on rejection (returned Bool false) the flag stays
down and nothing else happens; on success the engine is marked initialized and
startDrone runs.  A second init call returns immediately. -/
def initEngine (s : SchedState) (backendOk : Bool) : SchedState × Bool :=
  if s.initialized = true then (s, true)
  else if backendOk = true then
    ({ s with initialized := true, droneStarted := true }, true)
  else (s, false)

/-- A concrete initialized scheduler state whose last accepted trigger lies far
in the past, used by the closed counterexample and witness theorems. -/
def sched1 : SchedState :=
  { initialized := true, droneStarted := true, noteIdx := 0
    variationTick := 0, nextTrigger := 0, lastTriggerAt := -1 }

/-- A concrete initialized scheduler state whose last accepted trigger happened
at wall-clock time 0, used to exhibit two consecutive same-category calls less
than one minimum gap apart whose second call is nevertheless accepted. -/
def sched0 : SchedState :=
  { initialized := true, droneStarted := true, noteIdx := 0
    variationTick := 0, nextTrigger := 0, lastTriggerAt := 0 }

/-- One slot of the particle pool (src/components/ParticleSystem.tsx lines 26-40),
restricted to the fields the allocation policy reads and writes.  The geometric
fields (position, velocity, acceleration, color, phase, sizes) are driven by
trigonometric and logarithmic functions with no exact rational embedding and are
never read by the allocation policy, so they are not modelled. -/
structure Particle where
  active : Bool
  life : Rat
  maxLife : Rat
  event : Option WikiEditEvent
  seed : Nat
  bornAt : Rat
  deriving DecidableEq, Repr

instance : Inhabited Particle :=
  ⟨{ active := false, life := 0, maxLife := 1, event := none, seed := 0, bornAt := 0 }⟩

/-- createInitialParticles (src/components/ParticleSystem.tsx lines 42-60) on the
modelled fields: every slot inactive, life 0, maxLife 1, no event, seed i, born
at time 0. -/
def createInitialParticles (maxParticles : Nat) : List Particle :=
  (List.range maxParticles).map fun i =>
    { active := false, life := 0, maxLife := 1, event := none, seed := i, bornAt := 0 }

/-- lifeFromMagnitude from src/components/ParticleSystem.tsx lines 90-102. -/
def lifeFromMagnitude (m : EditMagnitude) (seed : Nat) : Rat :=
  let variation := 65/100 + seedNorm seed 11 * (9/10)
  match m with
  | .TINY => 22/10 * variation
  | .SMALL => 36/10 * variation
  | .MEDIUM => 54/10 * variation
  | .LARGE => 82/10 * variation

/-- The hash key of spawnParticles (src/components/ParticleSystem.tsx line 201). -/
def spawnKey (e : WikiEditEvent) : String :=
  e.id ++ "-" ++ e.title ++ "-" ++ toString e.timestamp

/-- The slot contents written by spawnParticles (lines 209-218) on the modelled
fields: the slot becomes active, owns the event, and carries the seeded lifetime
and the creation timestamp `performance.now()` (the `now` parameter). -/
def spawnedParticle (e : WikiEditEvent) (now : Rat) : Particle :=
  let seed := hashString (spawnKey e)
  let life := lifeFromMagnitude e.magnitude seed
  { active := true, life := life, maxLife := life, event := some e
    seed := seed, bornAt := now }

/-- The creation time of slot i, with the default slot for an out-of-range index. -/
def particleBornAt (ps : List Particle) (i : Nat) : Rat :=
  (ps.getD i default).bornAt

/-- One step of the oldest-slot scan of spawnParticles (lines 193-196):
`if (particles[i].bornAt < particles[oldest].bornAt) oldest = i`. -/
def oldestStep (ps : List Particle) (oldest i : Nat) : Nat :=
  if particleBornAt ps i < particleBornAt ps oldest then i else oldest

/-- The eviction index of spawnParticles (lines 192-198): the scan starts at
oldest = 0; folding from i = 0 instead of i = 1 is identical because the i = 0
step is an irreflexive self-comparison. -/
def oldestIdx (ps : List Particle) : Nat :=
  (List.range ps.length).foldl (oldestStep ps) 0

/-- spawnParticles from src/components/ParticleSystem.tsx lines 184-242 on the
modelled fields: an empty pool is left untouched (`particles.length === 0`
guard); otherwise the first inactive slot — or, when every slot is active, the
slot with the oldest creation time — is overwritten with the new particle. -/
def spawnParticles (ps : List Particle) (e : WikiEditEvent) (now : Rat) :
    List Particle :=
  if ps.length = 0 then ps
  else
    let targetIndex :=
      match ps.findIdx? (fun p => !p.active) with
      | some j => j
      | none => oldestIdx ps
    ps.set targetIndex (spawnedParticle e now)

/-- The number of free (inactive) slots of the pool. -/
def freeCount (ps : List Particle) : Nat :=
  ps.countP (fun p => !p.active)

/-- A concrete fully active two-slot pool. -/
def fullPool : List Particle :=
  [{ active := true, life := 1, maxLife := 1, event := none, seed := 0, bornAt := 0 },
   { active := true, life := 1, maxLife := 1, event := none, seed := 1, bornAt := 1 }]

/-- Helper: with the revert flag false, classification depends only on `|sizeDelta|`. -/
theorem classifyMagnitude_false_eq (d : Int) :
    classifyMagnitude d false =
      (if 5000 ≤ d.natAbs then .LARGE else if 501 ≤ d.natAbs then .MEDIUM
       else if 51 ≤ d.natAbs then .SMALL else .TINY) := by
  simp [classifyMagnitude]

/-- Claim C3: classifyMagnitude is a pure total function; revert forces LARGE;
otherwise the result is monotonic in `|delta|`; the thresholds partition `|delta|`
into exactly four contiguous bands with boundary values in the higher band, with
delta 5000 yielding LARGE and 4999 yielding MEDIUM. -/
theorem classifyMagnitude_bands :
    (∀ d : Int, classifyMagnitude d true = .LARGE) ∧
    (∀ d₁ d₂ : Int, d₁.natAbs ≤ d₂.natAbs →
      (classifyMagnitude d₁ false).rank ≤ (classifyMagnitude d₂ false).rank) ∧
    (∀ d : Int,
      (classifyMagnitude d false = .TINY ↔ d.natAbs ≤ 50) ∧
      (classifyMagnitude d false = .SMALL ↔ 51 ≤ d.natAbs ∧ d.natAbs ≤ 500) ∧
      (classifyMagnitude d false = .MEDIUM ↔ 501 ≤ d.natAbs ∧ d.natAbs ≤ 4999) ∧
      (classifyMagnitude d false = .LARGE ↔ 5000 ≤ d.natAbs)) ∧
    classifyMagnitude 5000 false = .LARGE ∧ classifyMagnitude 4999 false = .MEDIUM := by
  refine ⟨fun d => by simp [classifyMagnitude], ?_, ?_, by decide, by decide⟩
  · intro d₁ d₂ h
    rw [classifyMagnitude_false_eq, classifyMagnitude_false_eq]
    split_ifs <;> simp [EditMagnitude.rank] <;> omega
  · intro d
    rw [classifyMagnitude_false_eq]
    split_ifs <;> refine ⟨?_, ?_, ?_, ?_⟩ <;> simp <;> omega

/-- Witness for C3: the monotonicity conjunct applied at deltas 30 and 5000. -/
theorem classifyMagnitude_bands_witness :
    (classifyMagnitude 30 false).rank ≤ (classifyMagnitude 5000 false).rank :=
  classifyMagnitude_bands.2.1 30 5000 (by decide)

/-- Helper: folding the bounded append keeps only the last `cap` elements of the
whole arrival sequence (truncated subtraction makes the drop index 0 while the
list is still under capacity). -/
theorem foldl_pushBounded (cap : Nat) (hc : 0 < cap) (es : List WikiEditEvent) :
    ∀ l : List WikiEditEvent, l.length ≤ cap →
      es.foldl (pushBounded cap) l = (l ++ es).drop ((l ++ es).length - cap) := by
  induction es with
  | nil =>
      intro l h
      simp [Nat.sub_eq_zero_of_le h]
  | cons e es ih =>
      intro l h
      rw [List.foldl_cons]
      by_cases hl : cap ≤ l.length
      · have hlen : l.length = cap := le_antisymm h hl
        cases l with
        | nil => exact absurd hlen.symm (by simpa using Nat.pos_iff_ne_zero.mp hc)
        | cons a l' =>
          have hl' : l'.length + 1 = cap := by simpa using hlen
          have hpb : pushBounded cap (a :: l') e = l' ++ [e] := by
            simp only [pushBounded]
            rw [if_pos hl]
            simp
          have hlen2 : (l' ++ [e]).length ≤ cap := by simp; omega
          rw [hpb, ih _ hlen2]
          have h1 : ((l' ++ [e]) ++ es).length - cap = es.length := by simp; omega
          have h2 : ((a :: l') ++ e :: es).length - cap = es.length + 1 := by simp; omega
          rw [h1, h2]
          have h3 : (l' ++ [e]) ++ es = l' ++ e :: es := by simp
          have h4 : (a :: l') ++ e :: es = a :: (l' ++ e :: es) := by simp
          rw [h3, h4, List.drop_succ_cons]
      · have hpb : pushBounded cap l e = l ++ [e] := by
          simp only [pushBounded]
          rw [if_neg hl]
        have hlen2 : (l ++ [e]).length ≤ cap := by simp; omega
        rw [hpb, ih _ hlen2]
        have h3 : (l ++ [e]) ++ es = l ++ e :: es := by simp
        rw [h3]

/-- Helper: componentwise description of enqueueing a whole sequence. -/
theorem enqueueAll_spec (es : List WikiEditEvent) :
    ∀ s : Store,
      (enqueueAll s es).queue = es.foldl (pushBounded MAX_QUEUE) s.queue ∧
      (enqueueAll s es).history = es.foldl (pushBounded MAX_HISTORY) s.history ∧
      (enqueueAll s es).totalCount = s.totalCount + es.length := by
  induction es with
  | nil => intro s; simp [enqueueAll]
  | cons e es ih =>
      intro s
      obtain ⟨h1, h2, h3⟩ := ih (s.enqueue e)
      refine ⟨?_, ?_, ?_⟩
      · simpa [enqueueAll, List.foldl_cons, Store.enqueue] using h1
      · simpa [enqueueAll, List.foldl_cons, Store.enqueue] using h2
      · simp [enqueueAll, List.foldl_cons, Store.enqueue] at h3 ⊢
        omega

/-- Helper: dequeue only ever touches the queue field. -/
theorem dequeue_frame_aux (s : Store) :
    s.dequeue.1.history = s.history ∧ s.dequeue.1.totalCount = s.totalCount ∧
    s.dequeue.1.audio = s.audio ∧ s.dequeue.1.overlayVisible = s.overlayVisible ∧
    s.dequeue.1.connected = s.connected ∧ s.dequeue.1.introFinished = s.introFinished ∧
    s.dequeue.1.aboutVisible = s.aboutVisible ∧ s.dequeue.1.queue = s.queue.tail := by
  obtain ⟨q, h, t, a, o, c, i, ab⟩ := s
  cases q <;> simp [Store.dequeue]

/-- Helper: a single store operation preserves the queue capacity bound. -/
theorem applyOp_queue_length (s : Store) (op : StoreOp)
    (h : s.queue.length ≤ MAX_QUEUE) : (applyOp s op).queue.length ≤ MAX_QUEUE := by
  cases op with
  | enq e =>
      by_cases hc : MAX_QUEUE ≤ s.queue.length
      · have : s.queue.length = MAX_QUEUE := le_antisymm h hc
        simp only [applyOp, Store.enqueue, pushBounded, if_pos hc]
        simp [MAX_QUEUE] at this ⊢
        omega
      · simp only [applyOp, Store.enqueue, pushBounded, if_neg hc]
        simp [MAX_QUEUE] at hc ⊢
        omega
  | deq =>
      have := (dequeue_frame_aux s).2.2.2.2.2.2.2
      simp only [applyOp, this]
      calc s.queue.tail.length ≤ s.queue.length := by
            cases s.queue <;> simp
        _ ≤ MAX_QUEUE := h
  | setAudio p => simpa [applyOp, Store.setAudio] using h
  | toggleOverlay => simpa [applyOp] using h
  | setConnected v => simpa [applyOp] using h
  | setIntroFinished v => simpa [applyOp] using h
  | toggleAbout => simpa [applyOp] using h
  | setAboutVisible v => simpa [applyOp] using h

/-- Helper: the queue capacity bound is an invariant of every operation sequence. -/
theorem applyOps_queue_length (ops : List StoreOp) :
    ∀ s : Store, s.queue.length ≤ MAX_QUEUE →
      (applyOps s ops).queue.length ≤ MAX_QUEUE := by
  induction ops with
  | nil => intro s h; simpa [applyOps] using h
  | cons op ops ih =>
      intro s h
      have h1 := applyOp_queue_length s op h
      simpa [applyOps, List.foldl_cons] using ih (applyOp s op) h1

/-- Helper: no store operation ever decreases the total counter. -/
theorem applyOp_totalCount_mono (s : Store) (op : StoreOp) :
    s.totalCount ≤ (applyOp s op).totalCount := by
  cases op with
  | deq => exact le_of_eq (dequeue_frame_aux s).2.1.symm
  | enq e => simp [applyOp, Store.enqueue]
  | setAudio p => simp [applyOp, Store.setAudio]
  | toggleOverlay => simp [applyOp]
  | setConnected v => simp [applyOp]
  | setIntroFinished v => simp [applyOp]
  | toggleAbout => simp [applyOp]
  | setAboutVisible v => simp [applyOp]

/-- Helper: the total counter is monotone along every operation sequence. -/
theorem applyOps_totalCount_mono (ops : List StoreOp) :
    ∀ s : Store, s.totalCount ≤ (applyOps s ops).totalCount := by
  induction ops with
  | nil => intro s; simp [applyOps]
  | cons op ops ih =>
      intro s
      exact le_trans (applyOp_totalCount_mono s op)
        (by simpa [applyOps, List.foldl_cons] using ih (applyOp s op))

/-- Claim C2: enqueueing 201 events into the capacity-200 queue leaves exactly the
most recent 200 events in arrival order, of length exactly 200; the queue length
never exceeds 200 under any sequence of store operations from the fresh store;
enqueue is total (it never fails), being a Lean function. -/
theorem queue_drop_oldest_law (s : Store) (es : List WikiEditEvent)
    (hq : s.queue.length ≤ 200) (hn : es.length = 201) :
    (enqueueAll s es).queue = es.drop 1 ∧
    (enqueueAll s es).queue.length = 200 ∧
    ∀ ops : List StoreOp, (applyOps initialStore ops).queue.length ≤ 200 := by
  have hq' : s.queue.length ≤ MAX_QUEUE := by simpa [MAX_QUEUE] using hq
  have h1 := (enqueueAll_spec es s).1
  rw [foldl_pushBounded MAX_QUEUE (by simp [MAX_QUEUE]) es s.queue hq'] at h1
  have hidx : (s.queue ++ es).length - MAX_QUEUE = s.queue.length + 1 := by
    simp [MAX_QUEUE, hn]
  rw [hidx] at h1
  have hdrop : (s.queue ++ es).drop (s.queue.length + 1) = es.drop 1 := by
    simp
  rw [hdrop] at h1
  refine ⟨h1, ?_, ?_⟩
  · rw [h1]
    simp [hn]
  · intro ops
    have := applyOps_queue_length ops initialStore (by simp [initialStore, MAX_QUEUE])
    simpa [MAX_QUEUE] using this

/-- Witness for C2: instantiated with 201 copies of the sample event, starting
from the fresh store. -/
theorem queue_drop_oldest_law_witness :
    (enqueueAll initialStore (List.replicate 201 sampleEvent)).queue
        = (List.replicate 201 sampleEvent).drop 1 ∧
    (enqueueAll initialStore (List.replicate 201 sampleEvent)).queue.length = 200 ∧
    ∀ ops : List StoreOp, (applyOps initialStore ops).queue.length ≤ 200 :=
  queue_drop_oldest_law initialStore (List.replicate 201 sampleEvent)
    (Nat.zero_le 200) (List.length_replicate 201 sampleEvent)

/-- Claim C8: every enqueue appends the same event to the independent bounded
history ring (capacity 500, drop-oldest at capacity) and increments the total
counter by exactly one; the counter is monotone — never reset — under every
sequence of store operations; after 300 enqueues from the fresh store the
counter equals 300 while the queue length stays within its capacity 200. -/
theorem enqueue_history_and_counter (s : Store) (es : List WikiEditEvent)
    (e : WikiEditEvent) (h300 : es.length = 300) :
    ((s.enqueue e).totalCount = s.totalCount + 1) ∧
    (s.history.length < 500 → (s.enqueue e).history = s.history ++ [e]) ∧
    (s.history.length = 500 → (s.enqueue e).history = s.history.drop 1 ++ [e]) ∧
    (∀ ops : List StoreOp, s.totalCount ≤ (applyOps s ops).totalCount) ∧
    (enqueueAll initialStore es).totalCount = 300 ∧
    (enqueueAll initialStore es).queue.length ≤ 200 := by
  refine ⟨by simp [Store.enqueue], ?_, ?_, fun ops => applyOps_totalCount_mono ops s, ?_, ?_⟩
  · intro hlt
    have hneg : ¬ MAX_HISTORY ≤ s.history.length := by simp [MAX_HISTORY]; omega
    simp only [Store.enqueue, pushBounded, if_neg hneg]
  · intro heq
    have hpos : MAX_HISTORY ≤ s.history.length := by simp [MAX_HISTORY, heq]
    simp only [Store.enqueue, pushBounded, if_pos hpos]
  · have h := (enqueueAll_spec es initialStore).2.2
    have hz : initialStore.totalCount = 0 := rfl
    rw [h, hz, h300]
  · have hzq : initialStore.queue = [] := rfl
    have h1 := (enqueueAll_spec es initialStore).1
    rw [foldl_pushBounded MAX_QUEUE (by simp [MAX_QUEUE]) es initialStore.queue
      (by rw [hzq]; simp)] at h1
    rw [h1, hzq]
    simp [MAX_QUEUE, h300]

/-- Witness for C8: instantiated with the fresh store, 300 copies of the sample
event, and the sample event. -/
theorem enqueue_history_and_counter_witness :
    ((initialStore.enqueue sampleEvent).totalCount = initialStore.totalCount + 1) ∧
    (initialStore.history.length < 500 →
      (initialStore.enqueue sampleEvent).history = initialStore.history ++ [sampleEvent]) ∧
    (initialStore.history.length = 500 →
      (initialStore.enqueue sampleEvent).history
        = initialStore.history.drop 1 ++ [sampleEvent]) ∧
    (∀ ops : List StoreOp, initialStore.totalCount ≤ (applyOps initialStore ops).totalCount) ∧
    (enqueueAll initialStore (List.replicate 300 sampleEvent)).totalCount = 300 ∧
    (enqueueAll initialStore (List.replicate 300 sampleEvent)).queue.length ≤ 200 :=
  enqueue_history_and_counter initialStore (List.replicate 300 sampleEvent) sampleEvent
    (List.length_replicate 300 sampleEvent)

/-- Claim C10: dequeue modifies only the queue field — removing its head when the
queue is non-empty and returning it, and returning the empty indicator with the
store unchanged when the queue is empty; the history ring, the total counter,
the aggregate audio levels and all UI flags are unchanged by every dequeue. -/
theorem dequeue_frame_effect (s : Store) :
    s.dequeue.1.history = s.history ∧ s.dequeue.1.totalCount = s.totalCount ∧
    s.dequeue.1.audio = s.audio ∧ s.dequeue.1.overlayVisible = s.overlayVisible ∧
    s.dequeue.1.connected = s.connected ∧ s.dequeue.1.introFinished = s.introFinished ∧
    s.dequeue.1.aboutVisible = s.aboutVisible ∧
    (s.queue = [] → s.dequeue = (s, none)) ∧
    (∀ e rest, s.queue = e :: rest → s.dequeue.1.queue = rest ∧ s.dequeue.2 = some e) := by
  obtain ⟨h1, h2, h3, h4, h5, h6, h7, -⟩ := dequeue_frame_aux s
  refine ⟨h1, h2, h3, h4, h5, h6, h7, ?_, ?_⟩
  · intro hq
    simp [Store.dequeue, hq]
  · intro e rest hq
    constructor <;> simp [Store.dequeue, hq]

/-- Witness for C10: the frame effect of dequeue at the fresh store. -/
theorem dequeue_frame_effect_witness :
    initialStore.dequeue.1.history = initialStore.history ∧
    initialStore.dequeue.1.totalCount = initialStore.totalCount ∧
    initialStore.dequeue.1.audio = initialStore.audio ∧
    initialStore.dequeue.1.overlayVisible = initialStore.overlayVisible ∧
    initialStore.dequeue.1.connected = initialStore.connected ∧
    initialStore.dequeue.1.introFinished = initialStore.introFinished ∧
    initialStore.dequeue.1.aboutVisible = initialStore.aboutVisible ∧
    (initialStore.queue = [] → initialStore.dequeue = (initialStore, none)) ∧
    (∀ e rest, initialStore.queue = e :: rest →
      initialStore.dequeue.1.queue = rest ∧ initialStore.dequeue.2 = some e) :=
  dequeue_frame_effect initialStore

/-- Counterexample for C4: the scenario record yields sizeDelta 50 and no revert,
but its magnitude is not SMALL (the SMALL band starts at 51), refuting the
claimed magnitude. -/
theorem normalize_typo_fix_counterexample :
    (normalizeEvent rawTypoFix "x" 0).sizeDelta = 50 ∧
    (normalizeEvent rawTypoFix "x" 0).isRevert = false ∧
    (normalizeEvent rawTypoFix "x" 0).magnitude ≠ .SMALL := by decide

/-- Claim C4 (amended): the scenario record normalizes to sizeDelta 50, no revert,
and magnitude TINY. -/
theorem normalize_typo_fix :
    (normalizeEvent rawTypoFix "x" 0).sizeDelta = 50 ∧
    (normalizeEvent rawTypoFix "x" 0).isRevert = false ∧
    (normalizeEvent rawTypoFix "x" 0).magnitude = .TINY := by decide

/-- Counterexample for C7: a well-formed record on which the normalization does
not reproduce the source values — the revert flag flips to true because the
comment mentions "undo", and the timestamp is scaled from seconds to
milliseconds rather than read back unchanged. -/
theorem normalize_round_trip_counterexample :
    WellFormedRaw rawUndo ∧
    (normalizeEvent rawUndo "x" 0).isRevert ≠ rawUndo.reverted.getD false ∧
    (normalizeEvent rawUndo "x" 0).timestamp ≠ rawUndo.timestamp.getD 0 := by decide

/-- Claim C7 (amended): for every well-formed raw record, normalization reproduces
the size delta (new minus old, exactly, with no precision loss for integers) and
the bot flag; the timestamp is the source timestamp scaled by the fixed
seconds-to-milliseconds factor 1000, recovered exactly by integer division; and
the revert flag equals the source reverted flag OR the comment containing
"revert" or "undo" case-insensitively — hence it reproduces the source reverted
flag exactly whenever the comment mentions neither. -/
theorem normalize_round_trip (raw : RawRecord) (fallbackId : String) (nowMs : Int)
    (ol nl : Int) (b : Bool) (c : String) (t : Int)
    (hol : raw.lengthOld = some ol) (hnl : raw.lengthNew = some nl)
    (hb : raw.bot = some b) (hc : raw.comment = some c) (ht : raw.timestamp = some t) :
    (normalizeEvent raw fallbackId nowMs).sizeDelta = nl - ol ∧
    (normalizeEvent raw fallbackId nowMs).isBot = b ∧
    (normalizeEvent raw fallbackId nowMs).timestamp = t * 1000 ∧
    (normalizeEvent raw fallbackId nowMs).timestamp / 1000 = t ∧
    (normalizeEvent raw fallbackId nowMs).isRevert
      = (raw.reverted.getD false || commentMentionsRevert c) ∧
    (commentMentionsRevert c = false →
      (normalizeEvent raw fallbackId nowMs).isRevert = raw.reverted.getD false) := by
  have hts : (normalizeEvent raw fallbackId nowMs).timestamp = t * 1000 := by
    simp [normalizeEvent, ht]
  refine ⟨by simp [normalizeEvent, hol, hnl], by simp [normalizeEvent, hb], hts, ?_, ?_, ?_⟩
  · rw [hts]
    exact Int.mul_ediv_cancel t (by norm_num)
  · simp [normalizeEvent, hc]
  · intro h
    simp [normalizeEvent, hc, h]

/-- Witness for C7: the amended round trip applied to the concrete record rawUndo. -/
theorem normalize_round_trip_witness :
    (normalizeEvent rawUndo "x" 0).sizeDelta = 5 - 2 ∧
    (normalizeEvent rawUndo "x" 0).isBot = false ∧
    (normalizeEvent rawUndo "x" 0).timestamp = 7 * 1000 ∧
    (normalizeEvent rawUndo "x" 0).timestamp / 1000 = 7 ∧
    (normalizeEvent rawUndo "x" 0).isRevert
      = (rawUndo.reverted.getD false || commentMentionsRevert "undo spam") ∧
    (commentMentionsRevert "undo spam" = false →
      (normalizeEvent rawUndo "x" 0).isRevert = rawUndo.reverted.getD false) :=
  normalize_round_trip rawUndo "x" 0 2 5 false "undo spam" 7 rfl rfl rfl rfl rfl

/-- Helper: a trigger that schedules audio was made on an initialized engine. -/
theorem triggerEdit_accept_initialized (s : SchedState) (e : WikiEditEvent)
    (now t : Rat) (h : (triggerEdit s e now).2 = some t) : s.initialized = true := by
  by_cases h1 : s.initialized = false
  · simp [triggerEdit, h1] at h
  · simpa using h1

/-- Helper: the state after an accepted trigger. -/
theorem triggerEdit_accept (s : SchedState) (e : WikiEditEvent) (now t : Rat)
    (h : (triggerEdit s e now).2 = some t) :
    (triggerEdit s e now).1 =
      { s with variationTick := s.variationTick + 1, lastTriggerAt := now
               nextTrigger := getNextTriggerTime now s.nextTrigger
               noteIdx := s.noteIdx + 1 } := by
  have h1 : s.initialized = true := triggerEdit_accept_initialized s e now t h
  by_cases h2 : now - s.lastTriggerAt < minGapForEvent e
  · simp [triggerEdit, h1, h2] at h
  · simp [triggerEdit, h1, h2]

/-- Helper: a trigger inside the minimum gap is dropped, bumping only the
variation counter. -/
theorem triggerEdit_drop (s : SchedState) (e : WikiEditEvent) (now : Rat)
    (hinit : s.initialized = true)
    (hgap : now - s.lastTriggerAt < minGapForEvent e) :
    triggerEdit s e now = ({ s with variationTick := s.variationTick + 1 }, none) := by
  simp [triggerEdit, hinit, hgap]

/-- Helper: the cursor strictly increases on every accepted trigger. -/
theorem triggerEdit_cursor_lt (s : SchedState) (e : WikiEditEvent) (now t : Rat)
    (h : (triggerEdit s e now).2 = some t) :
    s.nextTrigger < (triggerEdit s e now).1.nextTrigger := by
  rw [triggerEdit_accept s e now t h]
  have h2 : s.nextTrigger < s.nextTrigger + 2/1000 := by linarith
  exact lt_of_lt_of_le h2 (le_max_right _ _)

/-- Counterexample for C1: an accepted trigger whose scheduled cursor time equals
now + minimum lookahead exactly (the cursor lags behind), so the scheduled time
is not strictly greater than now + minimum lookahead as claimed. -/
theorem minGap_sample : minGapForEvent sampleEvent = 6/100 := rfl

theorem sched1_accepts : ((triggerEdit sched1 sampleEvent 1).2).isSome = true := by
  norm_num [triggerEdit, sched1, minGap_sample]

theorem sched1_cursor : (triggerEdit sched1 sampleEvent 1).1.nextTrigger = 1 + 5/1000 := by
  norm_num [triggerEdit, sched1, minGap_sample, getNextTriggerTime, max_def]

/-- Helper: an option known to hold a value equals `some` of its getD read-back. -/
theorem opt_eq_some_getD {α : Type} (o : Option α) (d : α) (h : o.isSome = true) :
    o = some (o.getD d) := by
  cases o with
  | none => simp at h
  | some v => simp

theorem monotonic_scheduling_counterexample :
    ((triggerEdit sched1 sampleEvent 1).2).isSome = true ∧
    ¬ (1 + 5/1000 < (triggerEdit sched1 sampleEvent 1).1.nextTrigger) := by
  refine ⟨sched1_accepts, ?_⟩
  rw [sched1_cursor]
  exact lt_irrefl _

/-- Claim C1 (amended): whenever the scheduler accepts a trigger, the scheduling
cursor becomes max(now + minimum lookahead, previous scheduled time + minimum
increment); it is at least now + minimum lookahead (with equality possible) and
strictly greater than the previously scheduled time, so for any two consecutive
accepted triggers the second scheduled cursor time is strictly greater than the
first. -/
theorem monotonic_scheduling (s : SchedState) (e : WikiEditEvent) (now t : Rat)
    (h : (triggerEdit s e now).2 = some t) :
    (triggerEdit s e now).1.nextTrigger
        = max (now + 5/1000) (s.nextTrigger + 2/1000) ∧
    now + 5/1000 ≤ (triggerEdit s e now).1.nextTrigger ∧
    s.nextTrigger < (triggerEdit s e now).1.nextTrigger ∧
    (∀ e₂ now₂ t₂, (triggerEdit (triggerEdit s e now).1 e₂ now₂).2 = some t₂ →
      (triggerEdit s e now).1.nextTrigger
        < (triggerEdit (triggerEdit s e now).1 e₂ now₂).1.nextTrigger) := by
  have hacc := triggerEdit_accept s e now t h
  refine ⟨by rw [hacc]; rfl, ?_, triggerEdit_cursor_lt s e now t h, ?_⟩
  · rw [hacc]
    exact le_max_left _ _
  · intro e₂ now₂ t₂ h₂
    exact triggerEdit_cursor_lt _ e₂ now₂ t₂ h₂

/-- Witness for C1: the amended monotonicity applied to a concrete accepted
trigger at now = 1. -/
theorem monotonic_scheduling_witness :
    (triggerEdit sched1 sampleEvent 1).1.nextTrigger
        = max ((1:Rat) + 5/1000) (sched1.nextTrigger + 2/1000) ∧
    (1:Rat) + 5/1000 ≤ (triggerEdit sched1 sampleEvent 1).1.nextTrigger ∧
    sched1.nextTrigger < (triggerEdit sched1 sampleEvent 1).1.nextTrigger ∧
    (∀ e₂ now₂ t₂, (triggerEdit (triggerEdit sched1 sampleEvent 1).1 e₂ now₂).2 = some t₂ →
      (triggerEdit sched1 sampleEvent 1).1.nextTrigger
        < (triggerEdit (triggerEdit sched1 sampleEvent 1).1 e₂ now₂).1.nextTrigger) :=
  monotonic_scheduling sched1 sampleEvent 1
    ((triggerEdit sched1 sampleEvent 1).2.getD 0)
    (opt_eq_some_getD (triggerEdit sched1 sampleEvent 1).2 0 sched1_accepts)

/-- Counterexample for C5: two consecutive same-category (TINY, minimum gap
0.06s) trigger calls only 0.02s apart whose second call is nevertheless
accepted — it schedules audio and moves the scheduling cursor — because the
first call was itself dropped, and a dropped call does not update the last
accepted wall-clock time the gap is measured from. -/
theorem min_gap_drop_counterexample :
    (triggerEdit sched0 sampleEvent (5/100)).2 = none ∧
    (7:Rat)/100 - 5/100 < minGapForEvent sampleEvent ∧
    ((triggerEdit (triggerEdit sched0 sampleEvent (5/100)).1 sampleEvent (7/100)).2).isSome
        = true ∧
    (triggerEdit (triggerEdit sched0 sampleEvent (5/100)).1 sampleEvent (7/100)).1.nextTrigger
        ≠ (triggerEdit sched0 sampleEvent (5/100)).1.nextTrigger := by
  have hd : triggerEdit sched0 sampleEvent (5/100)
      = ({ sched0 with variationTick := sched0.variationTick + 1 }, none) :=
    triggerEdit_drop sched0 sampleEvent (5/100) rfl (by norm_num [sched0, minGap_sample])
  refine ⟨by rw [hd], by norm_num [minGap_sample], ?_, ?_⟩
  · rw [hd]
    norm_num [triggerEdit, sched0, minGap_sample]
  · rw [hd]
    norm_num [triggerEdit, sched0, minGap_sample, getNextTriggerTime, max_def]

/-- Claim C5 (amended): a trigger call arriving within the magnitude-dependent
minimum gap (0.12s for LARGE or revert, 0.09s for MEDIUM, 0.06s otherwise) of
the most recent accepted trigger schedules no audio at all — a silent drop, no
error — and leaves the scheduling cursor state (cursor, last accepted wall-clock
time, rolling note counter) unchanged; in particular, for two consecutive calls
whose first is accepted, a second call less than the minimum gap later is
dropped. -/
theorem min_gap_drop (s : SchedState) (e₁ e₂ : WikiEditEvent) (now₁ now₂ t₁ : Rat)
    (h₁ : (triggerEdit s e₁ now₁).2 = some t₁)
    (hgap : now₂ - now₁ < minGapForEvent e₂) :
    (triggerEdit (triggerEdit s e₁ now₁).1 e₂ now₂).2 = none ∧
    (triggerEdit (triggerEdit s e₁ now₁).1 e₂ now₂).1.nextTrigger
        = (triggerEdit s e₁ now₁).1.nextTrigger ∧
    (triggerEdit (triggerEdit s e₁ now₁).1 e₂ now₂).1.lastTriggerAt
        = (triggerEdit s e₁ now₁).1.lastTriggerAt ∧
    (triggerEdit (triggerEdit s e₁ now₁).1 e₂ now₂).1.noteIdx
        = (triggerEdit s e₁ now₁).1.noteIdx ∧
    ((e₂.isRevert = true ∨ e₂.magnitude = .LARGE) → minGapForEvent e₂ = 12/100) ∧
    (e₂.isRevert = false → e₂.magnitude = .MEDIUM → minGapForEvent e₂ = 9/100) ∧
    (e₂.isRevert = false → (e₂.magnitude = .TINY ∨ e₂.magnitude = .SMALL) →
      minGapForEvent e₂ = 6/100) := by
  have hinit : s.initialized = true := triggerEdit_accept_initialized s e₁ now₁ t₁ h₁
  have hacc := triggerEdit_accept s e₁ now₁ t₁ h₁
  have hinit1 : (triggerEdit s e₁ now₁).1.initialized = true := by rw [hacc]; exact hinit
  have hlast : (triggerEdit s e₁ now₁).1.lastTriggerAt = now₁ := by rw [hacc]
  have hdrop := triggerEdit_drop (triggerEdit s e₁ now₁).1 e₂ now₂ hinit1
    (by rw [hlast]; exact hgap)
  refine ⟨by rw [hdrop], by rw [hdrop], by rw [hdrop], by rw [hdrop], ?_, ?_, ?_⟩
  · rintro (hr | hm)
    · simp [minGapForEvent, hr]
    · simp [minGapForEvent, hm]
  · intro hr hm
    simp [minGapForEvent, hr, hm]
  · rintro hr (hm | hm) <;> simp [minGapForEvent, hr, hm]

/-- Witness for C5: a concrete accepted trigger at now = 1 followed 10ms later by
a second trigger of the same (TINY) category, which is dropped. -/
theorem min_gap_drop_witness :
    (triggerEdit (triggerEdit sched1 sampleEvent 1).1 sampleEvent (101/100)).2 = none ∧
    (triggerEdit (triggerEdit sched1 sampleEvent 1).1 sampleEvent (101/100)).1.nextTrigger
        = (triggerEdit sched1 sampleEvent 1).1.nextTrigger ∧
    (triggerEdit (triggerEdit sched1 sampleEvent 1).1 sampleEvent (101/100)).1.lastTriggerAt
        = (triggerEdit sched1 sampleEvent 1).1.lastTriggerAt ∧
    (triggerEdit (triggerEdit sched1 sampleEvent 1).1 sampleEvent (101/100)).1.noteIdx
        = (triggerEdit sched1 sampleEvent 1).1.noteIdx ∧
    ((sampleEvent.isRevert = true ∨ sampleEvent.magnitude = .LARGE) →
      minGapForEvent sampleEvent = 12/100) ∧
    (sampleEvent.isRevert = false → sampleEvent.magnitude = .MEDIUM →
      minGapForEvent sampleEvent = 9/100) ∧
    (sampleEvent.isRevert = false →
      (sampleEvent.magnitude = .TINY ∨ sampleEvent.magnitude = .SMALL) →
      minGapForEvent sampleEvent = 6/100) :=
  min_gap_drop sched1 sampleEvent sampleEvent 1 (101/100)
    ((triggerEdit sched1 sampleEvent 1).2.getD 0)
    (opt_eq_some_getD (triggerEdit sched1 sampleEvent 1).2 0 sched1_accepts)
    (by norm_num [minGap_sample])

/-- Claim C9: a trigger received before initialization has completed is a silent
no-op — the state is unchanged and nothing is scheduled; if initialization fails
the engine stays uninitialized (init reports failure and changes nothing), so
every subsequent trigger remains a no-op; the per-event trigger path is a total
function and never throws. -/
theorem pre_init_triggers_noop (s : SchedState) (e : WikiEditEvent) (now : Rat)
    (hinit : s.initialized = false) :
    triggerEdit s e now = (s, none) ∧
    initEngine s false = (s, false) ∧
    (∀ e₂ now₂, triggerEdit (initEngine s false).1 e₂ now₂ = ((initEngine s false).1, none)) := by
  have h1 : triggerEdit s e now = (s, none) := by simp [triggerEdit, hinit]
  have h2 : initEngine s false = (s, false) := by simp [initEngine, hinit]
  refine ⟨h1, h2, ?_⟩
  intro e₂ now₂
  rw [h2]
  simp [triggerEdit, hinit]

/-- Witness for C9: the fresh scheduler state ignores the sample trigger, a
failed init leaves it unchanged, and triggers after the failed init stay no-ops. -/
theorem pre_init_triggers_noop_witness :
    triggerEdit initialSched sampleEvent 0 = (initialSched, none) ∧
    initEngine initialSched false = (initialSched, false) ∧
    (∀ e₂ now₂, triggerEdit (initEngine initialSched false).1 e₂ now₂
      = ((initEngine initialSched false).1, none)) :=
  pre_init_triggers_noop initialSched sampleEvent 0 rfl

/-- Helper: a pool whose slots are all active has no free slot. -/
theorem freeCount_eq_zero_of_all_active (ps : List Particle)
    (h : ∀ p ∈ ps, p.active = true) : freeCount ps = 0 := by
  unfold freeCount
  rw [List.countP_eq_zero]
  intro p hp
  simp [h p hp]

/-- Helper: overwriting an inactive slot with an active one frees exactly one
slot fewer. -/
theorem freeCount_set_inactive (ps : List Particle) (j : Nat) (b : Particle)
    (hb : b.active = true) (hj : j < ps.length) (ha : ps[j].active = false) :
    freeCount (ps.set j b) + 1 = freeCount ps := by
  induction ps generalizing j with
  | nil => simp at hj
  | cons a t ih =>
      cases j with
      | zero =>
          have ha' : a.active = false := by simpa using ha
          simp [freeCount, List.countP_cons, hb, ha']
      | succ j =>
          have hj' : j < t.length := by simpa using hj
          have ha' : t[j].active = false := by simpa using ha
          have := ih j hj' ha'
          simp only [List.set_cons_succ, freeCount, List.countP_cons] at this ⊢
          omega

/-- Helper: spawning into a fully active pool keeps every slot active. -/
theorem spawnParticles_all_active (ps : List Particle) (e : WikiEditEvent)
    (now : Rat) (h : ∀ p ∈ ps, p.active = true) :
    freeCount (spawnParticles ps e now) = 0 := by
  apply freeCount_eq_zero_of_all_active
  intro p hp
  by_cases h0 : ps.length = 0
  · rw [spawnParticles, if_pos h0] at hp
    exact h p hp
  · rw [spawnParticles, if_neg h0] at hp
    rcases List.mem_or_eq_of_mem_set hp with hmem | rfl
    · exact h p hmem
    · rfl

/-- Helper: the oldest-slot scan returns an index among those scanned (or its
start value) whose creation time is minimal among all scanned indices. -/
theorem oldestStep_foldl (ps : List Particle) (l : List Nat) :
    ∀ acc : Nat,
      (l.foldl (oldestStep ps) acc = acc ∨ l.foldl (oldestStep ps) acc ∈ l) ∧
      particleBornAt ps (l.foldl (oldestStep ps) acc) ≤ particleBornAt ps acc ∧
      ∀ i ∈ l, particleBornAt ps (l.foldl (oldestStep ps) acc) ≤ particleBornAt ps i := by
  induction l with
  | nil => exact fun acc => ⟨Or.inl rfl, le_refl _, by simp⟩
  | cons x xs ih =>
      intro acc
      obtain ⟨hmem, hle, hall⟩ := ih (oldestStep ps acc x)
      have hstep_le : particleBornAt ps (oldestStep ps acc x) ≤ particleBornAt ps acc := by
        unfold oldestStep
        split_ifs with hc
        · exact le_of_lt hc
        · exact le_refl _
      have hstep_x : particleBornAt ps (oldestStep ps acc x) ≤ particleBornAt ps x := by
        unfold oldestStep
        split_ifs with hc
        · exact le_refl _
        · exact not_lt.mp hc
      rw [List.foldl_cons]
      refine ⟨?_, le_trans hle hstep_le, ?_⟩
      · rcases hmem with h | h
        · rw [h]
          unfold oldestStep
          split_ifs
          · exact Or.inr (List.mem_cons_self x xs)
          · exact Or.inl rfl
        · exact Or.inr (List.mem_cons_of_mem x h)
      · intro i hi
        rcases List.mem_cons.mp hi with rfl | hi'
        · exact le_trans hle hstep_x
        · exact hall i hi'

/-- Helper: on a non-empty pool the eviction index is in range and points at a
slot of minimal creation time. -/
theorem oldestIdx_spec (ps : List Particle) (hne : ps.length ≠ 0) :
    oldestIdx ps < ps.length ∧
    ∀ i, i < ps.length → particleBornAt ps (oldestIdx ps) ≤ particleBornAt ps i := by
  obtain ⟨hmem, -, hall⟩ := oldestStep_foldl ps (List.range ps.length) 0
  constructor
  · rcases hmem with h | h
    · unfold oldestIdx
      rw [h]
      omega
    · exact List.mem_range.mp h
  · intro i hi
    exact hall i (List.mem_range.mpr hi)

/-- Counterexample for C6: spawning into a fully active pool does not leave "one
fewer" free slot — the free-slot count is zero both before and after, because
the evicted slot is immediately reused. -/
theorem particle_pool_spawn_counterexample :
    (∀ p ∈ fullPool, p.active = true) ∧
    ¬ (freeCount (spawnParticles fullPool sampleEvent 5) + 1 = freeCount fullPool) := by
  have hall : ∀ p ∈ fullPool, p.active = true := by decide
  refine ⟨hall, ?_⟩
  rw [spawnParticles_all_active fullPool sampleEvent 5 hall,
    freeCount_eq_zero_of_all_active fullPool hall]
  simp

/-- Claim C6 (amended): spawn never changes the pool size and never errors; it
reuses the first inactive slot when one exists, leaving exactly one fewer free
slot; when every slot is active it overwrites the slot with the oldest creation
time (in range, of minimal bornAt), leaving the free-slot count unchanged at
zero because the evicted slot is immediately reused. -/
theorem particle_pool_spawn (ps : List Particle) (e : WikiEditEvent) (now : Rat) :
    (spawnParticles ps e now).length = ps.length ∧
    ((∀ p ∈ ps, p.active = true) → freeCount (spawnParticles ps e now) = 0) ∧
    (∀ j, ps.findIdx? (fun p => !p.active) = some j →
      spawnParticles ps e now = ps.set j (spawnedParticle e now) ∧
      (ps.getD j default).active = false ∧
      freeCount (spawnParticles ps e now) + 1 = freeCount ps) ∧
    (ps.length ≠ 0 → ps.findIdx? (fun p => !p.active) = none →
      spawnParticles ps e now = ps.set (oldestIdx ps) (spawnedParticle e now) ∧
      oldestIdx ps < ps.length ∧
      ∀ i, i < ps.length → particleBornAt ps (oldestIdx ps) ≤ particleBornAt ps i) := by
  refine ⟨?_, spawnParticles_all_active ps e now, ?_, ?_⟩
  · by_cases h0 : ps.length = 0
    · rw [spawnParticles, if_pos h0]
    · rw [spawnParticles, if_neg h0]
      simp
  · intro j hj
    have hlt : j < ps.length := (List.findIdx?_eq_some_iff_findIdx_eq.mp hj).1
    have h0 : ps.length ≠ 0 := by omega
    have hspawn : spawnParticles ps e now = ps.set j (spawnedParticle e now) := by
      simp only [spawnParticles, if_neg h0, hj]
    have hget : ps[j].active = false := by
      obtain ⟨w, h1, -⟩ := List.findIdx?_eq_some_iff_getElem.mp hj
      simpa using h1
    refine ⟨hspawn, ?_, ?_⟩
    · rw [List.getD_eq_getElem ps default hlt]
      exact hget
    · rw [hspawn]
      exact freeCount_set_inactive ps j (spawnedParticle e now) rfl hlt hget
  · intro h0 hnone
    have hspawn : spawnParticles ps e now = ps.set (oldestIdx ps) (spawnedParticle e now) := by
      simp only [spawnParticles, if_neg h0, hnone]
    obtain ⟨hlt, hmin⟩ := oldestIdx_spec ps h0
    exact ⟨hspawn, hlt, hmin⟩

/-- Witness for C6: spawning into the concrete fully active pool leaves zero free
slots. -/
theorem particle_pool_spawn_witness :
    freeCount (spawnParticles fullPool sampleEvent 5) = 0 :=
  (particle_pool_spawn fullPool sampleEvent 5).2.1 (by decide)
